import Mathlib

/-!
Verification of the Job Lifecycle Tracking & Polling Client of the
SmartExam OCR frontend.

The repository's shipped views (`History.tsx`, `SavedFiles`, `Reference`,
`Navbar`, `App.tsx`) are embedded directly from their TypeScript source.
The tracker core described by the design document (Job Record Store,
Status Fetcher, Poll Scheduler, Job Tracker façade) is not present among
the shipped sources; those components are modelled from the design
document's contracts and marked `Modelled from the spec:` in their doc
comments.
-/

/-- Job pipeline states, exactly the six named by the design document
(§4.3): `uploaded → processing → assessing → generating_feedback →
completed`, with `failed` reachable from any non-terminal state. -/
inductive JobState where
  | uploaded
  | processing
  | assessing
  | generating_feedback
  | completed
  | failed
deriving DecidableEq

/-- Modelled from the spec: `uploaded` is the initial state of every job
(§4.3). -/
def initialState : JobState := JobState.uploaded

/-- Modelled from the spec: terminal states are `completed` and `failed`
(§4.3, Glossary). -/
def JobState.isTerminal : JobState → Bool
  | JobState.completed => true
  | JobState.failed => true
  | _ => false

/-- Wire name of each state, as the backend reports it and as the views
switch on it. -/
def JobState.stateName : JobState → String
  | JobState.uploaded => "uploaded"
  | JobState.processing => "processing"
  | JobState.assessing => "assessing"
  | JobState.generating_feedback => "generating_feedback"
  | JobState.completed => "completed"
  | JobState.failed => "failed"

/-- Modelled from the spec: a Job snapshot (§3). `pollingExhausted`
distinguishes the client-side synthetic `failed` from a backend-reported
one (§4.4 item 3). Identifiers are modelled as naturals. -/
structure Job where
  jobId : Nat
  state : JobState
  createdAt : Nat
  lastUpdatedAt : Nat
  sourceJobId : Option Nat
  result : Option Nat
  error : Option String
  pollingExhausted : Bool
deriving DecidableEq

/-- Modelled from the spec: the Job Record Store, an in-memory mapping
from job identifier to last-known snapshot (§4.1). -/
def Store : Type := Nat → Option Job

/-- Modelled from the spec: `put` is a full-snapshot replace keyed by the
job's identifier, never a partial merge (§4.1). -/
def Store.put (j : Job) (s : Store) : Store :=
  fun id => if id = j.jobId then some j else s id

/-- Modelled from the spec: the fetch-error taxonomy (§7): `NetworkError`,
`NotFoundError`, `ServerError`. -/
inductive FetchError where
  | network
  | notFound
  | server
deriving DecidableEq

/- ## formatFileSize (SavedFiles view) -/

/-- Rendering of `(num / den).toFixed(1)`: the quotient rounded to one
decimal place, ties away from zero (the numbers the view divides are
nonnegative integers over a power-of-two denominator, so the JavaScript
float holds the quotient exactly and `toFixed(1)` rounds the true value). -/
def toFixed1 (num den : Nat) : String :=
  let q := (10 * num + den / 2) / den
  toString (q / 10) ++ "." ++ toString (q % 10)

/-- Embedded from `SavedFiles.formatFileSize`:
`if (bytes < 1024) return bytes + ' B';
 if (bytes < 1024 * 1024) return (bytes / 1024).toFixed(1) + ' KB';
 return (bytes / (1024 * 1024)).toFixed(1) + ' MB';`. -/
def formatFileSize (bytes : Nat) : String :=
  if bytes < 1024 then toString bytes ++ " B"
  else if bytes < 1024 * 1024 then toFixed1 bytes 1024 ++ " KB"
  else toFixed1 bytes (1024 * 1024) ++ " MB"

/- ## Reference view: fetchReferences -/

/-- A dynamically-typed response payload as the Reference view receives
it: either an array of records or something else (`Array.isArray` is the
discriminator the code uses). -/
inductive RespData where
  | arr (items : List Nat)
  | other
deriving DecidableEq

/-- Embedding of JavaScript `Array.isArray` on a response payload. -/
def RespData.isArrayData : RespData → Bool
  | RespData.arr _ => true
  | RespData.other => false

/-- State of the Reference view relevant to `fetchReferences`. -/
structure RefState where
  references : RespData
  loading : Bool
  toastMessage : Option String
deriving DecidableEq

/-- Fallback toast text used by `fetchReferences`'s catch block when the
server supplies no message. -/
def refErrorMessage : FetchError → String :=
  fun _ => "Failed to fetch references"

/-- Embedded from `Reference.fetchReferences`: the try block sets
`references` to `Array.isArray(response.data) ? response.data : []`; the
catch block toasts an error message and sets `references` to `[]`; the
finally block clears `loading`. The `Except` codomain records whether an
exception escapes the function: the catch-all means the answer is always
`Except.ok`. -/
def fetchReferencesRun (prev : RefState) (resp : Except FetchError RespData) :
    Except FetchError RefState :=
  match resp with
  | Except.ok v =>
      Except.ok ⟨if v.isArrayData then v else RespData.arr [], false, prev.toastMessage⟩
  | Except.error e =>
      Except.ok ⟨RespData.arr [], false, some (refErrorMessage e)⟩

/- ## History view -/

/-- A record of the History view's list, from the `HistoryItem`
interface in `History.tsx` (fractional marks modelled as integers). -/
structure HistoryItem where
  job_id : String
  student_name : String
  student_id : String
  exam_name : String
  subject : String
  percentage : Int
  grade : String
  state : String
  created_at : String
  total_marks : Int
  total_marks_obtained : Int
deriving DecidableEq

/-- State of the History view relevant to `fetchHistory`. -/
structure HistoryState where
  history : List HistoryItem
  loading : Bool
deriving DecidableEq

/-- Embedded from `History.fetchHistory`: the try block stores
`response.data.history`; the catch block only logs; the finally block
clears `loading`. The `Except` codomain records whether an exception
escapes: the catch-all means the answer is always `Except.ok`. -/
def fetchHistoryRun (prev : HistoryState)
    (resp : Except FetchError (List HistoryItem)) : Except FetchError HistoryState :=
  match resp with
  | Except.ok items => Except.ok ⟨items, false⟩
  | Except.error _ => Except.ok ⟨prev.history, false⟩

/-- Embedded from `History.fetchHistory`:
`const params = filter !== 'all' ? { status: filter } : {};`
— the query parameters sent with the history request, as key/value pairs. -/
def historyParams (filter : String) : List (String × String) :=
  if filter ≠ "all" then [("status", filter)] else []

/-- Embedded from `History.getStateColor`: the switch over the reported
state string, with the grey classes as the default branch. -/
def getStateColor (state : String) : String :=
  if state = "completed" then "bg-green-100 text-green-800"
  else if state = "failed" then "bg-red-100 text-red-800"
  else if state = "processing" ∨ state = "assessing" ∨ state = "generating_feedback" then
    "bg-yellow-100 text-yellow-800"
  else "bg-gray-100 text-gray-800"

/-- Embedded from `SavedFiles.getStateColor`: the switch over the
reported state string in the Saved Files view. -/
def getStateColorFiles (state : String) : String :=
  if state = "completed" then "bg-green-500/20 text-green-600 border border-green-500/30"
  else if state = "failed" then "bg-red-500/20 text-red-600 border border-red-500/30"
  else "bg-gray-500/20 text-gray-600 border border-gray-500/30"

/- ## History query (backend contract) -/

/-- Modelled from the spec: whether a job passes the optional state
filter of a History Query (§3, §4.1). -/
def jobStateMatches (f : Option JobState) (j : Job) : Bool :=
  match f with
  | some st => decide (j.state = st)
  | none => true

/-- Insert a job into a list kept in descending `createdAt` order. -/
def insertDesc (j : Job) : List Job → List Job
  | [] => [j]
  | x :: t => if x.createdAt ≤ j.createdAt then j :: x :: t else x :: insertDesc j t

/-- Sort a job list by `createdAt` descending (most recent first). -/
def sortByCreatedDesc : List Job → List Job
  | [] => []
  | x :: t => insertDesc x (sortByCreatedDesc t)

/-- Modelled from the spec: a History Query applies the optional `state`
filter and orders by `createdAt` descending (§3, §4.1, §8). -/
def queryHistory (jobs : List Job) (f : Option JobState) : List Job :=
  sortByCreatedDesc (jobs.filter (jobStateMatches f))

/- ## Poll Scheduler (modelled from the spec) -/

/-- Modelled from the spec: per-job poll-loop bookkeeping — live
subscriber count, consecutive-failure count, and current back-off
interval in milliseconds (§4.4). -/
structure PollLoop where
  subscribers : Nat
  failures : Nat
  interval : Nat
deriving DecidableEq

/-- Modelled from the spec: the bounded number of consecutive failures
after which polling is abandoned; a tunable, the spec's example value is
5 (§4.4 item 3, §8). -/
def failureBound : Nat := 5

/-- Modelled from the spec: the default polling cadence in milliseconds,
a tunable (§4.4 item 2). -/
def baseInterval : Nat := 3000

/-- Modelled from the spec: the cap on the exponential back-off interval,
a tunable (§4.4 item 3). -/
def maxInterval : Nat := 30000

/-- Look up the poll loop registered for a job id. -/
def lookupLoop : List (Nat × PollLoop) → Nat → Option PollLoop
  | [], _ => none
  | e :: t, id => if e.1 = id then some e.2 else lookupLoop t id

/-- Remove the poll loop registered for a job id (release its timers). -/
def removeLoop : List (Nat × PollLoop) → Nat → List (Nat × PollLoop)
  | [], _ => []
  | e :: t, id => if e.1 = id then removeLoop t id else e :: removeLoop t id

/-- Rewrite the poll loop registered for a job id in place. -/
def updateLoop : List (Nat × PollLoop) → Nat → (PollLoop → PollLoop) → List (Nat × PollLoop)
  | [], _, _ => []
  | e :: t, id, f => if e.1 = id then (e.1, f e.2) :: updateLoop t id f
                     else e :: updateLoop t id f

/-- The job ids that currently have a poll loop. -/
def loopIds (t : List (Nat × PollLoop)) : List Nat := t.map Prod.fst

/-- Modelled from the spec: the Poll Scheduler's state — the Job Record
Store plus the registry of active poll loops (§4.4, §5). -/
structure SchedState where
  store : Store
  loops : List (Nat × PollLoop)

/-- Modelled from the spec: what the normal update channel carries to
subscribers — either a fresh snapshot or a taxonomy entry for a fetch
failure (§4.4, §7). -/
inductive Update where
  | snapshot (j : Job)
  | fetchFailed (e : FetchError)
deriving DecidableEq

/-- Modelled from the spec: the events the scheduler reacts to —
subscription start, unsubscription, and completion of an in-flight
status fetch with either a snapshot or a fetch error (§4.4, §5). -/
inductive Op where
  | subscribe (id : Nat)
  | unsubscribe (id : Nat)
  | pollOk (id : Nat) (j : Job)
  | pollFail (id : Nat) (e : FetchError)
deriving DecidableEq

/-- Modelled from the spec: the synthetic locally-failed snapshot written
when the failure bound is exceeded: state `failed`, `error = "polling
exhausted"`, flagged `pollingExhausted` to stay distinguishable from a
backend-reported failure (§4.4 item 3, §7). -/
def exhaustedJob (id : Nat) (prev : Option Job) : Job :=
  match prev with
  | some j => ⟨id, JobState.failed, j.createdAt, j.lastUpdatedAt, j.sourceJobId,
               none, some "polling exhausted", true⟩
  | none => ⟨id, JobState.failed, 0, 0, none, none, some "polling exhausted", true⟩

/-- Modelled from the spec: one scheduler transition (§4.4, §7). A new
subscription attaches to an existing loop when one is registered and
starts a fresh loop otherwise, replaying the cached snapshot if the
Store has one; the last unsubscription releases the loop; a completed
fetch is processed only when a loop is registered for the id (no fetch
is in flight otherwise): a snapshot replaces the Store record and stops
the loop at terminal states, a fetch error is delivered on the update
channel, with not-found stopping immediately and transient errors
backing off exponentially until the failure bound, where the synthetic
exhausted snapshot is written and the loop stops. Returns the new state
and the updates delivered to the job's subscribers. -/
def step (s : SchedState) (o : Op) : SchedState × List Update :=
  match o with
  | Op.subscribe id =>
      let loops :=
        if (lookupLoop s.loops id).isSome then
          updateLoop s.loops id (fun l => ⟨l.subscribers + 1, l.failures, l.interval⟩)
        else s.loops ++ [(id, ⟨1, 0, baseInterval⟩)]
      (⟨s.store, loops⟩,
        match s.store id with
        | some j => [Update.snapshot j]
        | none => [])
  | Op.unsubscribe id =>
      match lookupLoop s.loops id with
      | none => (s, [])
      | some l =>
          if l.subscribers ≤ 1 then (⟨s.store, removeLoop s.loops id⟩, [])
          else (⟨s.store, updateLoop s.loops id
                  (fun l2 => ⟨l2.subscribers - 1, l2.failures, l2.interval⟩)⟩, [])
  | Op.pollOk id j =>
      if (lookupLoop s.loops id).isSome then
        (⟨Store.put j s.store,
          if j.state.isTerminal then removeLoop s.loops id
          else updateLoop s.loops id (fun l => ⟨l.subscribers, 0, baseInterval⟩)⟩,
         [Update.snapshot j])
      else (s, [])
  | Op.pollFail id e =>
      match lookupLoop s.loops id with
      | none => (s, [])
      | some l =>
          match e with
          | FetchError.notFound =>
              (⟨s.store, removeLoop s.loops id⟩, [Update.fetchFailed FetchError.notFound])
          | _ =>
              if failureBound ≤ l.failures + 1 then
                let j := exhaustedJob id (s.store id)
                (⟨Store.put j s.store, removeLoop s.loops id⟩, [Update.snapshot j])
              else
                (⟨s.store, updateLoop s.loops id
                    (fun l2 => ⟨l2.subscribers, l2.failures + 1,
                                min (l2.interval * 2) maxInterval⟩)⟩,
                 [Update.fetchFailed e])

/-- The state part of a scheduler transition. -/
def applyOp (s : SchedState) (o : Op) : SchedState := (step s o).1

/-- The scheduler's start state: empty Store, no loops. -/
def initSched : SchedState := ⟨fun _ => none, []⟩

/-- The scheduler states reachable from the start state. -/
inductive Reachable : SchedState → Prop
  | init : Reachable initSched
  | step (s : SchedState) (o : Op) : Reachable s → Reachable (applyOp s o)

/- ## Backend reprocess contract and SavedFiles.handleReprocess -/

/-- Modelled from the spec: the backend's job table with its fresh-id
supply; every stored job's id was assigned below the supply. -/
structure Backend where
  jobs : Nat → Option Job
  nextId : Nat

/-- Modelled from the spec: backend well-formedness — ids are assigned
by the backend at creation, so every stored id precedes the fresh-id
supply (§3). -/
def BackendWF (b : Backend) : Prop :=
  ∀ id j, b.jobs id = some j → id < b.nextId

/-- Modelled from the spec: `POST reprocess(jobId)` creates a new Job
derived from the file behind the given job, in the initial state, with
`sourceJobId` back-referencing the source, and returns the new
identifier immediately (§4.2, §6). -/
def reprocess (b : Backend) (srcId : Nat) (now : Nat) : Backend × Nat :=
  let newId := b.nextId
  let newJob : Job := ⟨newId, initialState, now, now, some srcId, none, none, false⟩
  (⟨fun i => if i = newId then some newJob else b.jobs i, b.nextId + 1⟩, newId)

/-- Embedded from `SavedFiles.handleReprocess`: on a successful
`reprocessFile` response the view navigates to `/results/${newJobId}`;
on failure it alerts. It touches no poll-loop registry: the returned
registry is the argument unchanged, and the second component is the
navigation target. -/
def handleReprocess (resp : Except FetchError Nat)
    (loops : List (Nat × PollLoop)) :
    List (Nat × PollLoop) × Option Nat × Option String :=
  match resp with
  | Except.ok newId => (loops, some newId, none)
  | Except.error _ => (loops, none, some "Failed to reprocess file")

/- ## Concrete sample states used to exercise the model -/

/-- A completed job, for exercising the model at concrete inputs. -/
def sampleJob : Job := ⟨0, JobState.completed, 5, 6, none, some 95, none, false⟩

/-- A backend holding just `sampleJob` under id 0, with 1 as the next
fresh id. -/
def sampleBackend : Backend :=
  ⟨fun i => if i = 0 then some sampleJob else none, 1⟩

/-- The scheduler after one subscription to job 7. -/
def watchedSched : SchedState := applyOp initSched (Op.subscribe 7)

/-- The scheduler after two subscriptions to job 7. -/
def sampleSched : SchedState := applyOp watchedSched (Op.subscribe 7)

/-- A terminal snapshot for job 7. -/
def doneJob : Job := ⟨7, JobState.completed, 1, 2, none, some 88, none, false⟩

/-- A scheduler whose loop for job 7 already has four consecutive
failures. -/
def nearExhaustedSched : SchedState := ⟨fun _ => none, [(7, ⟨1, 4, 3000⟩)]⟩

/- ## Registry lemmas -/

theorem loopIds_updateLoop (t : List (Nat × PollLoop)) (id : Nat) (f : PollLoop → PollLoop) :
    loopIds (updateLoop t id f) = loopIds t := by
  induction t with
  | nil => rfl
  | cons e t ih =>
      simp only [loopIds] at ih ⊢
      simp only [updateLoop]
      split <;> simp [ih]

theorem mem_loopIds_removeLoop (t : List (Nat × PollLoop)) (id a : Nat)
    (h : a ∈ loopIds (removeLoop t id)) : a ∈ loopIds t := by
  induction t with
  | nil => simp [removeLoop, loopIds] at h
  | cons e t ih =>
      simp only [removeLoop] at h
      split at h
      · exact List.mem_cons_of_mem _ (ih h)
      · rcases List.mem_cons.mp h with h1 | h2
        · exact List.mem_cons.mpr (Or.inl h1)
        · exact List.mem_cons_of_mem _ (ih h2)

theorem nodup_loopIds_removeLoop (t : List (Nat × PollLoop)) (id : Nat)
    (h : (loopIds t).Nodup) : (loopIds (removeLoop t id)).Nodup := by
  induction t with
  | nil => simp [removeLoop, loopIds]
  | cons e t ih =>
      simp only [loopIds, List.map_cons, List.nodup_cons] at h
      simp only [removeLoop]
      split
      · exact ih h.2
      · simp only [loopIds, List.map_cons, List.nodup_cons]
        exact ⟨fun hmem => h.1 (mem_loopIds_removeLoop t id e.1 hmem), ih h.2⟩

theorem lookupLoop_isSome_iff_mem (t : List (Nat × PollLoop)) (id : Nat) :
    (lookupLoop t id).isSome = true ↔ id ∈ loopIds t := by
  induction t with
  | nil => simp [lookupLoop, loopIds]
  | cons e t ih =>
      simp only [lookupLoop, loopIds, List.map_cons, List.mem_cons]
      by_cases he : e.1 = id
      · simp [he]
      · rw [if_neg he, ih]
        simp only [loopIds]
        constructor
        · exact fun h => Or.inr h
        · rintro (h | h)
          · omega
          · exact h

theorem lookupLoop_append_single (t : List (Nat × PollLoop)) (id : Nat) (l : PollLoop)
    (h : lookupLoop t id = none) : lookupLoop (t ++ [(id, l)]) id = some l := by
  induction t with
  | nil => simp [lookupLoop]
  | cons e t ih =>
      simp only [lookupLoop] at h
      by_cases he : e.1 = id
      · rw [if_pos he] at h
        exact absurd h (by simp)
      · rw [if_neg he] at h
        simp only [List.cons_append, lookupLoop, if_neg he]
        exact ih h

theorem lookupLoop_updateLoop_self (t : List (Nat × PollLoop)) (id : Nat)
    (f : PollLoop → PollLoop) (l : PollLoop) (h : lookupLoop t id = some l) :
    lookupLoop (updateLoop t id f) id = some (f l) := by
  induction t with
  | nil => simp [lookupLoop] at h
  | cons e t ih =>
      by_cases he : e.1 = id
      · simp only [lookupLoop, if_pos he] at h
        injection h with h
        simp only [updateLoop, if_pos he, lookupLoop, if_pos he, h]
      · simp only [lookupLoop, if_neg he] at h
        simp only [updateLoop, if_neg he, lookupLoop, if_neg he]
        exact ih h

theorem lookupLoop_removeLoop_self (t : List (Nat × PollLoop)) (id : Nat) :
    lookupLoop (removeLoop t id) id = none := by
  induction t with
  | nil => rfl
  | cons e t ih =>
      by_cases he : e.1 = id
      · simp only [removeLoop, if_pos he]
        exact ih
      · simp only [removeLoop, if_neg he, lookupLoop, if_neg he]
        exact ih

theorem lookupLoop_removeLoop_ne (t : List (Nat × PollLoop)) (id a : Nat)
    (h : a ≠ id) : lookupLoop (removeLoop t id) a = lookupLoop t a := by
  induction t with
  | nil => rfl
  | cons e t ih =>
      by_cases he : e.1 = id
      · have hea : ¬ e.1 = a := by omega
        simp only [removeLoop, if_pos he, lookupLoop, if_neg hea]
        exact ih
      · simp only [removeLoop, if_neg he, lookupLoop]
        by_cases hea : e.1 = a
        · simp [hea]
        · rw [if_neg hea, if_neg hea]
          exact ih

theorem lookupLoop_updateLoop_ne (t : List (Nat × PollLoop)) (id a : Nat)
    (f : PollLoop → PollLoop) (h : a ≠ id) :
    lookupLoop (updateLoop t id f) a = lookupLoop t a := by
  induction t with
  | nil => rfl
  | cons e t ih =>
      by_cases he : e.1 = id
      · have hea : ¬ e.1 = a := by omega
        simp only [updateLoop, if_pos he, lookupLoop, if_neg hea]
        exact ih
      · simp only [updateLoop, if_neg he, lookupLoop]
        by_cases hea : e.1 = a
        · simp [hea]
        · rw [if_neg hea, if_neg hea]
          exact ih

theorem lookupLoop_append_ne (t : List (Nat × PollLoop)) (id a : Nat) (l : PollLoop)
    (h : a ≠ id) : lookupLoop (t ++ [(id, l)]) a = lookupLoop t a := by
  induction t with
  | nil =>
      have hne : ¬ id = a := by omega
      simp [lookupLoop, hne]
  | cons e t ih =>
      simp only [List.cons_append, lookupLoop]
      by_cases hea : e.1 = a
      · simp [hea]
      · rw [if_neg hea, if_neg hea]
        exact ih

/- ## Sorting lemmas -/

theorem mem_insertDesc (j a : Job) (l : List Job) :
    a ∈ insertDesc j l ↔ a = j ∨ a ∈ l := by
  induction l with
  | nil => simp [insertDesc]
  | cons x t ih =>
      simp only [insertDesc]
      split
      · simp
      · simp only [List.mem_cons, ih]
        tauto

theorem pairwise_insertDesc (j : Job) (l : List Job)
    (h : List.Pairwise (fun a b => b.createdAt ≤ a.createdAt) l) :
    List.Pairwise (fun a b => b.createdAt ≤ a.createdAt) (insertDesc j l) := by
  induction l with
  | nil => simp [insertDesc]
  | cons x t ih =>
      simp only [List.pairwise_cons] at h
      simp only [insertDesc]
      split
      · rename_i hle
        refine List.pairwise_cons.mpr ⟨?_, List.pairwise_cons.mpr h⟩
        intro b hb
        rcases List.mem_cons.mp hb with hb | hb
        · subst hb
          exact hle
        · exact le_trans (h.1 b hb) hle
      · rename_i hgt
        refine List.pairwise_cons.mpr ⟨?_, ih h.2⟩
        intro b hb
        rcases (mem_insertDesc j b t).mp hb with hb | hb
        · subst hb
          omega
        · exact h.1 b hb

theorem pairwise_sortByCreatedDesc (l : List Job) :
    List.Pairwise (fun a b => b.createdAt ≤ a.createdAt) (sortByCreatedDesc l) := by
  induction l with
  | nil => simp [sortByCreatedDesc]
  | cons x t ih => exact pairwise_insertDesc x (sortByCreatedDesc t) ih

theorem mem_sortByCreatedDesc (a : Job) (l : List Job) :
    a ∈ sortByCreatedDesc l ↔ a ∈ l := by
  induction l with
  | nil => simp [sortByCreatedDesc]
  | cons x t ih =>
      simp only [sortByCreatedDesc, mem_insertDesc, ih, List.mem_cons]

/- ## Claim theorems -/

/-- C8: snapshot replacement in the Job Record Store is idempotent —
applying `put j` twice yields the same Store state as applying it once,
so a repeat of a snapshot with the same `lastUpdatedAt` is an overwrite
with identical data. -/
theorem put_idempotent (s : Store) (j : Job) :
    Store.put j (Store.put j s) = Store.put j s := by
  funext id
  simp only [Store.put]
  split <;> rfl

/-- C9: after every completion of `fetchReferences` (success or failure)
the references state is an array; a successful response whose data is
not an array, and any thrown error, set it to the empty array. -/
theorem fetchReferences_always_array (prev : RefState)
    (resp : Except FetchError RespData) :
    (Except.map (fun st => st.references.isArrayData) (fetchReferencesRun prev resp)
      = Except.ok true)
    ∧ (∀ v, resp = Except.ok v → v.isArrayData = false →
        Except.map (fun st => st.references) (fetchReferencesRun prev resp)
          = Except.ok (RespData.arr []))
    ∧ (∀ e, resp = Except.error e →
        Except.map (fun st => st.references) (fetchReferencesRun prev resp)
          = Except.ok (RespData.arr [])) := by
  refine ⟨?_, ?_, ?_⟩
  · cases resp with
    | ok v =>
        by_cases hv : v.isArrayData = true
        · simp [fetchReferencesRun, Except.map, hv]
        · simp only [Bool.not_eq_true] at hv
          simp only [fetchReferencesRun, Except.map, hv, Bool.false_eq_true, if_false]
          rfl
    | error e => rfl
  · intro v hv hfalse
    subst hv
    simp [fetchReferencesRun, Except.map, hfalse]
  · intro e he
    subst he
    simp [fetchReferencesRun, Except.map]

/-- C9 witness: a successful response carrying non-array data leaves an
empty array in the references state. -/
theorem fetchReferences_always_array_witness :
    Except.map (fun st => st.references)
        (fetchReferencesRun ⟨RespData.other, true, none⟩ (Except.ok RespData.other))
      = Except.ok (RespData.arr []) :=
  (fetchReferences_always_array ⟨RespData.other, true, none⟩
      (Except.ok RespData.other)).2.1 RespData.other rfl rfl

/-- C10: `formatFileSize` returns the byte count with `' B'` exactly on
inputs below 1024, the count divided by 1024 rounded to one decimal with
`' KB'` exactly on inputs in `[1024, 1048576)`, and the count divided by
1048576 rounded to one decimal with `' MB'` otherwise; exactly one of the
three ranges applies to each input. -/
theorem formatFileSize_branches (n : Nat) :
    (n < 1024 → formatFileSize n = toString n ++ " B")
    ∧ (1024 ≤ n → n < 1048576 → formatFileSize n = toFixed1 n 1024 ++ " KB")
    ∧ (1048576 ≤ n → formatFileSize n = toFixed1 n 1048576 ++ " MB")
    ∧ ((n < 1024 ∧ ¬(1024 ≤ n ∧ n < 1048576) ∧ ¬1048576 ≤ n)
       ∨ (¬n < 1024 ∧ (1024 ≤ n ∧ n < 1048576) ∧ ¬1048576 ≤ n)
       ∨ (¬n < 1024 ∧ ¬(1024 ≤ n ∧ n < 1048576) ∧ 1048576 ≤ n)) := by
  refine ⟨?_, ?_, ?_, ?_⟩
  · intro h
    simp [formatFileSize, h]
  · intro h1 h2
    have hn : ¬ n < 1024 := by omega
    have hm : n < 1024 * 1024 := by omega
    simp [formatFileSize, hn, hm]
  · intro h
    have hn : ¬ n < 1024 := by omega
    have hm : ¬ n < 1024 * 1024 := by omega
    simp only [formatFileSize, hn, if_false, hm]
  · omega

/-- C10 witness: 1536 bytes fall in the kilobyte branch. -/
theorem formatFileSize_branches_witness :
    formatFileSize 1536 = toFixed1 1536 1024 ++ " KB" :=
  (formatFileSize_branches 1536).2.1 (by norm_num) (by norm_num)

/-- C5 counterexample: the History view names the state-filter query
parameter `status`, not `state` — at filter `completed` the sent
parameters are `[("status", "completed")]`. -/
theorem historyParams_key_is_status :
    historyParams "completed" = [("status", "completed")]
    ∧ historyParams "completed" ≠ [("state", "completed")] := by
  constructor
  · decide
  · decide

/-- C5 (amended): a History Query with filter `completed` returns only
jobs whose last snapshot has state `completed`, ordered by `createdAt`
descending, and the state filter travels in a query parameter named
`status`. -/
theorem queryHistory_completed_filter :
    (∀ (jobs : List Job) (j : Job),
        j ∈ queryHistory jobs (some JobState.completed) → j.state = JobState.completed)
    ∧ (∀ (jobs : List Job) (f : Option JobState),
        List.Pairwise (fun a b => b.createdAt ≤ a.createdAt) (queryHistory jobs f))
    ∧ (∀ f : String, f ≠ "all" → historyParams f = [("status", f)]) := by
  refine ⟨?_, ?_, ?_⟩
  · intro jobs j hj
    have hj2 : j ∈ jobs.filter (jobStateMatches (some JobState.completed)) :=
      (mem_sortByCreatedDesc j _).mp hj
    have := (List.mem_filter.mp hj2).2
    simpa [jobStateMatches] using this
  · intro jobs f
    exact pairwise_sortByCreatedDesc _
  · intro f hf
    simp [historyParams, hf]

/-- C5 witness: at filter `failed` the sent parameters are
`[("status", "failed")]`. -/
theorem queryHistory_completed_filter_witness :
    historyParams "failed" = [("status", "failed")] :=
  queryHistory_completed_filter.2.2 "failed" (by decide)

/-- C3: the job state machine has exactly the six states `uploaded`,
`processing`, `assessing`, `generating_feedback`, `completed`, `failed`,
with `uploaded` initial and `completed`/`failed` the only terminal
states; every state the views' state-classification switches handle
explicitly is one of the six; and the client accepts any backend-reported
snapshot as-is — a completed fetch replaces the Store record with the
reported snapshot whatever its state, with no transition validation. -/
theorem state_machine_shape :
    (∀ st : JobState,
        st = JobState.uploaded ∨ st = JobState.processing ∨ st = JobState.assessing
        ∨ st = JobState.generating_feedback ∨ st = JobState.completed
        ∨ st = JobState.failed)
    ∧ initialState = JobState.uploaded
    ∧ (∀ st : JobState,
        st.isTerminal = true ↔ (st = JobState.completed ∨ st = JobState.failed))
    ∧ (∀ x : String, getStateColor x ≠ "bg-gray-100 text-gray-800" →
        ∃ st : JobState, st.stateName = x)
    ∧ (∀ x : String,
        getStateColorFiles x ≠ "bg-gray-500/20 text-gray-600 border border-gray-500/30" →
        ∃ st : JobState, st.stateName = x)
    ∧ (∀ (s : SchedState) (id : Nat) (j : Job),
        (lookupLoop s.loops id).isSome = true → j.jobId = id →
        (applyOp s (Op.pollOk id j)).store id = some j) := by
  refine ⟨?_, rfl, ?_, ?_, ?_, ?_⟩
  · intro st
    cases st <;> simp
  · intro st
    cases st <;> simp [JobState.isTerminal]
  · intro x h
    by_cases h1 : x = "completed"
    · exact ⟨JobState.completed, h1.symm⟩
    by_cases h2 : x = "failed"
    · exact ⟨JobState.failed, h2.symm⟩
    by_cases h3 : x = "processing"
    · exact ⟨JobState.processing, h3.symm⟩
    by_cases h4 : x = "assessing"
    · exact ⟨JobState.assessing, h4.symm⟩
    by_cases h5 : x = "generating_feedback"
    · exact ⟨JobState.generating_feedback, h5.symm⟩
    exact absurd (by simp [getStateColor, h1, h2, h3, h4, h5]) h
  · intro x h
    by_cases h1 : x = "completed"
    · exact ⟨JobState.completed, h1.symm⟩
    by_cases h2 : x = "failed"
    · exact ⟨JobState.failed, h2.symm⟩
    exact absurd (by simp [getStateColorFiles, h1, h2]) h
  · intro s id j hl hj
    simp only [applyOp, step, hl, if_true, Store.put, hj]

/-- C3 witness: `assessing` is classified non-default by the History
view and is one of the six states. -/
theorem state_machine_shape_witness :
    ∃ st : JobState, st.stateName = "assessing" :=
  state_machine_shape.2.2.2.1 "assessing" (by decide)

/-- C4: for an existing job, `reprocess` returns a new identifier
distinct from the source's, the job observed under the new identifier
carries `sourceJobId` equal to the source identifier (and starts in the
initial state), and the Saved Files view's reprocess handler touches no
poll-loop registry — watching the new job is the caller's
responsibility. -/
theorem reprocess_lineage (b : Backend) (srcId now : Nat) (jsrc : Job)
    (hwf : BackendWF b) (hsrc : b.jobs srcId = some jsrc) :
    (reprocess b srcId now).2 ≠ srcId
    ∧ (∃ jb, (reprocess b srcId now).1.jobs ((reprocess b srcId now).2) = some jb
        ∧ jb.sourceJobId = some srcId ∧ jb.state = initialState)
    ∧ (∀ (resp : Except FetchError Nat) (loops : List (Nat × PollLoop)),
        (handleReprocess resp loops).1 = loops) := by
  have hlt : srcId < b.nextId := hwf srcId jsrc hsrc
  refine ⟨?_, ?_, ?_⟩
  · show b.nextId ≠ srcId
    omega
  · refine ⟨⟨b.nextId, initialState, now, now, some srcId, none, none, false⟩, ?_, rfl, rfl⟩
    simp [reprocess]
  · intro resp loops
    cases resp <;> rfl

/-- C4 witness: reprocessing the sample backend's job 0 yields the fresh
id 1. -/
theorem reprocess_lineage_witness :
    (reprocess sampleBackend 0 10).2 ≠ 0 :=
  (reprocess_lineage sampleBackend 0 10 sampleJob
      (by
        intro id j h
        by_cases h0 : id = 0
        · simp [sampleBackend, h0]
        · simp [sampleBackend, h0] at h)
      rfl).1

/- ## Scheduler invariants -/

theorem nodup_applyOp (s : SchedState) (o : Op) (h : (loopIds s.loops).Nodup) :
    (loopIds (applyOp s o).loops).Nodup := by
  cases o with
  | subscribe id =>
      rcases hx : lookupLoop s.loops id with _ | l
      · simp only [applyOp, step, hx, Option.isSome_none, Bool.false_eq_true, if_false]
        have hmem : id ∉ loopIds s.loops := fun hm => by
          have := (lookupLoop_isSome_iff_mem s.loops id).mpr hm
          rw [hx] at this
          simp at this
        simp only [loopIds, List.map_append, List.map_cons, List.map_nil]
        rw [List.nodup_append]
        refine ⟨h, List.nodup_singleton id, ?_⟩
        intro a ha hb
        simp only [List.mem_singleton] at hb
        subst hb
        exact hmem ha
      · simp only [applyOp, step, hx, Option.isSome_some, if_true]
        rw [loopIds_updateLoop]
        exact h
  | unsubscribe id =>
      rcases hx : lookupLoop s.loops id with _ | l
      · simp only [applyOp, step, hx]
        exact h
      · simp only [applyOp, step, hx]
        split
        · exact nodup_loopIds_removeLoop _ _ h
        · rw [loopIds_updateLoop]
          exact h
  | pollOk id j =>
      rcases hx : lookupLoop s.loops id with _ | l
      · simp only [applyOp, step, hx, Option.isSome_none, Bool.false_eq_true, if_false]
        exact h
      · simp only [applyOp, step, hx, Option.isSome_some, if_true]
        split
        · exact nodup_loopIds_removeLoop _ _ h
        · rw [loopIds_updateLoop]
          exact h
  | pollFail id e =>
      rcases hx : lookupLoop s.loops id with _ | l
      · simp only [applyOp, step, hx]
        exact h
      · cases e with
        | notFound =>
            simp only [applyOp, step, hx]
            exact nodup_loopIds_removeLoop _ _ h
        | network =>
            simp only [applyOp, step, hx]
            split
            · exact nodup_loopIds_removeLoop _ _ h
            · rw [loopIds_updateLoop]
              exact h
        | server =>
            simp only [applyOp, step, hx]
            split
            · exact nodup_loopIds_removeLoop _ _ h
            · rw [loopIds_updateLoop]
              exact h

theorem nodup_reachable (s : SchedState) (h : Reachable s) :
    (loopIds s.loops).Nodup := by
  induction h with
  | init => simp [initSched, loopIds]
  | step s o _ ih => exact nodup_applyOp s o ih

/-- C1: in every reachable scheduler state, each `jobId` has at most one
active poll loop regardless of subscriber count, and a further
subscription to a watched `jobId` attaches to the existing loop — the
set of loops is unchanged and only that loop's subscriber count grows. -/
theorem poll_loop_dedup (s : SchedState) (h : Reachable s) :
    (∀ id : Nat, (loopIds s.loops).count id ≤ 1)
    ∧ (∀ (id : Nat) (l : PollLoop), lookupLoop s.loops id = some l →
        loopIds (applyOp s (Op.subscribe id)).loops = loopIds s.loops
        ∧ lookupLoop (applyOp s (Op.subscribe id)).loops id =
            some ⟨l.subscribers + 1, l.failures, l.interval⟩) := by
  constructor
  · intro id
    exact List.nodup_iff_count_le_one.mp (nodup_reachable s h) id
  · intro id l hl
    have hs : (lookupLoop s.loops id).isSome = true := by
      rw [hl]
      rfl
    constructor
    · simp only [applyOp, step, hs, if_true]
      exact loopIds_updateLoop _ _ _
    · simp only [applyOp, step, hs, if_true]
      exact lookupLoop_updateLoop_self _ _ _ _ hl

/-- C1 witness: after two subscriptions to job 7 from the start state,
job 7's id occurs at most once in the loop registry. -/
theorem poll_loop_dedup_witness : (loopIds sampleSched.loops).count 7 ≤ 1 :=
  (poll_loop_dedup sampleSched
      (Reachable.step watchedSched (Op.subscribe 7)
        (Reachable.step initSched (Op.subscribe 7) Reachable.init))).1 7

/- ## No-loop no-op lemmas -/

theorem step_pollOk_noLoop (t : SchedState) (id : Nat) (j2 : Job)
    (hnone : lookupLoop t.loops id = none) : step t (Op.pollOk id j2) = (t, []) := by
  simp [step, hnone]

theorem step_pollFail_noLoop (t : SchedState) (id : Nat) (e : FetchError)
    (hnone : lookupLoop t.loops id = none) : step t (Op.pollFail id e) = (t, []) := by
  simp [step, hnone]

theorem lookupLoop_none_preserved (t : SchedState) (o : Op) (id : Nat)
    (hnone : lookupLoop t.loops id = none) (ho : o ≠ Op.subscribe id) :
    lookupLoop (applyOp t o).loops id = none := by
  cases o with
  | subscribe id2 =>
      have hne : id ≠ id2 := by
        intro hc
        subst hc
        exact ho rfl
      rcases hx : lookupLoop t.loops id2 with _ | l
      · simp only [applyOp, step, hx, Option.isSome_none, Bool.false_eq_true, if_false]
        rw [lookupLoop_append_ne _ _ _ _ hne]
        exact hnone
      · simp only [applyOp, step, hx, Option.isSome_some, if_true]
        rw [lookupLoop_updateLoop_ne _ _ _ _ hne]
        exact hnone
  | unsubscribe id2 =>
      rcases hx : lookupLoop t.loops id2 with _ | l
      · simp only [applyOp, step, hx]
        exact hnone
      · have hne : id ≠ id2 := by
          intro hc
          subst hc
          rw [hnone] at hx
          cases hx
        simp only [applyOp, step, hx]
        split
        · rw [lookupLoop_removeLoop_ne _ _ _ hne]
          exact hnone
        · rw [lookupLoop_updateLoop_ne _ _ _ _ hne]
          exact hnone
  | pollOk id2 j =>
      rcases hx : lookupLoop t.loops id2 with _ | l
      · simp only [applyOp, step, hx, Option.isSome_none, Bool.false_eq_true, if_false]
        exact hnone
      · have hne : id ≠ id2 := by
          intro hc
          subst hc
          rw [hnone] at hx
          cases hx
        simp only [applyOp, step, hx, Option.isSome_some, if_true]
        split
        · rw [lookupLoop_removeLoop_ne _ _ _ hne]
          exact hnone
        · rw [lookupLoop_updateLoop_ne _ _ _ _ hne]
          exact hnone
  | pollFail id2 e =>
      rcases hx : lookupLoop t.loops id2 with _ | l
      · simp only [applyOp, step, hx]
        exact hnone
      · have hne : id ≠ id2 := by
          intro hc
          subst hc
          rw [hnone] at hx
          cases hx
        cases e with
        | notFound =>
            simp only [applyOp, step, hx]
            rw [lookupLoop_removeLoop_ne _ _ _ hne]
            exact hnone
        | network =>
            simp only [applyOp, step, hx]
            split
            · rw [lookupLoop_removeLoop_ne _ _ _ hne]
              exact hnone
            · rw [lookupLoop_updateLoop_ne _ _ _ _ hne]
              exact hnone
        | server =>
            simp only [applyOp, step, hx]
            split
            · rw [lookupLoop_removeLoop_ne _ _ _ hne]
              exact hnone
            · rw [lookupLoop_updateLoop_ne _ _ _ _ hne]
              exact hnone

theorem exhaustedJob_jobId (id : Nat) (p : Option Job) :
    (exhaustedJob id p).jobId = id := by
  cases p <;> rfl

/-- C2: once a watched job reports a terminal state its poll loop is
released, and for a job with no loop no status fetch is processed —
`pollOk`/`pollFail` are no-ops — and every event other than a new
subscription keeps it loop-free, while a new subscription restores a
loop. -/
theorem terminal_states_sticky (s : SchedState) (id : Nat) (j : Job)
    (hl : (lookupLoop s.loops id).isSome = true)
    (ht : j.state.isTerminal = true) :
    lookupLoop (applyOp s (Op.pollOk id j)).loops id = none
    ∧ (∀ t : SchedState, lookupLoop t.loops id = none →
        (∀ j2, step t (Op.pollOk id j2) = (t, []))
        ∧ (∀ e, step t (Op.pollFail id e) = (t, []))
        ∧ (∀ o, o ≠ Op.subscribe id → lookupLoop (applyOp t o).loops id = none)
        ∧ (lookupLoop (applyOp t (Op.subscribe id)).loops id).isSome = true) := by
  constructor
  · simp only [applyOp, step, hl, if_true, ht]
    exact lookupLoop_removeLoop_self _ _
  · intro t hnone
    refine ⟨?_, ?_, ?_, ?_⟩
    · intro j2
      exact step_pollOk_noLoop t id j2 hnone
    · intro e
      exact step_pollFail_noLoop t id e hnone
    · intro o ho
      exact lookupLoop_none_preserved t o id hnone ho
    · simp only [applyOp, step, hnone, Option.isSome_none, Bool.false_eq_true, if_false]
      rw [lookupLoop_append_single _ _ _ hnone]
      rfl

/-- C2 witness: a `completed` snapshot for the watched job 7 releases
its poll loop. -/
theorem terminal_states_sticky_witness :
    lookupLoop (applyOp watchedSched (Op.pollOk 7 doneJob)).loops 7 = none :=
  (terminal_states_sticky watchedSched 7 doneJob rfl rfl).1

/-- C6: a transient fetch failure for a watched job below the failure
bound doubles its back-off interval up to the cap and counts the
failure; the failure that reaches the bound writes the synthetic
client-side terminal snapshot — state `failed`, error `"polling
exhausted"`, flagged as polling-exhausted — releases the loop, and a
subsequent fresh subscription to the job restores a loop so fetching
resumes. -/
theorem polling_exhaustion (s : SchedState) (id : Nat) (l : PollLoop) (e : FetchError)
    (hl : lookupLoop s.loops id = some l) (he : e ≠ FetchError.notFound) :
    (l.failures + 1 < failureBound →
      lookupLoop (applyOp s (Op.pollFail id e)).loops id =
        some ⟨l.subscribers, l.failures + 1, min (l.interval * 2) maxInterval⟩)
    ∧ (failureBound ≤ l.failures + 1 →
      (applyOp s (Op.pollFail id e)).store id = some (exhaustedJob id (s.store id))
      ∧ (exhaustedJob id (s.store id)).state = JobState.failed
      ∧ (exhaustedJob id (s.store id)).error = some "polling exhausted"
      ∧ (exhaustedJob id (s.store id)).pollingExhausted = true
      ∧ lookupLoop (applyOp s (Op.pollFail id e)).loops id = none
      ∧ (lookupLoop (applyOp (applyOp s (Op.pollFail id e)) (Op.subscribe id)).loops
          id).isSome = true) := by
  cases e with
  | notFound => exact absurd rfl he
  | network =>
      constructor
      · intro hlt
        have hnb : ¬ failureBound ≤ l.failures + 1 := by omega
        simp only [applyOp, step, hl, if_neg hnb]
        exact lookupLoop_updateLoop_self _ _ _ _ hl
      · intro hb
        have hafter : lookupLoop (applyOp s (Op.pollFail id FetchError.network)).loops id
            = none := by
          simp only [applyOp, step, hl, if_pos hb]
          exact lookupLoop_removeLoop_self _ _
        refine ⟨?_, ?_, ?_, ?_, hafter, ?_⟩
        · simp only [applyOp, step, hl, if_pos hb]
          simp [Store.put, exhaustedJob_jobId]
        · cases hp : s.store id <;> rfl
        · cases hp : s.store id <;> rfl
        · cases hp : s.store id <;> rfl
        · generalize hA : applyOp s (Op.pollFail id FetchError.network) = s2 at hafter ⊢
          simp only [applyOp, step, hafter, Option.isSome_none, Bool.false_eq_true, if_false]
          rw [lookupLoop_append_single _ _ _ hafter]
          rfl
  | server =>
      constructor
      · intro hlt
        have hnb : ¬ failureBound ≤ l.failures + 1 := by omega
        simp only [applyOp, step, hl, if_neg hnb]
        exact lookupLoop_updateLoop_self _ _ _ _ hl
      · intro hb
        have hafter : lookupLoop (applyOp s (Op.pollFail id FetchError.server)).loops id
            = none := by
          simp only [applyOp, step, hl, if_pos hb]
          exact lookupLoop_removeLoop_self _ _
        refine ⟨?_, ?_, ?_, ?_, hafter, ?_⟩
        · simp only [applyOp, step, hl, if_pos hb]
          simp [Store.put, exhaustedJob_jobId]
        · cases hp : s.store id <;> rfl
        · cases hp : s.store id <;> rfl
        · cases hp : s.store id <;> rfl
        · generalize hA : applyOp s (Op.pollFail id FetchError.server) = s2 at hafter ⊢
          simp only [applyOp, step, hafter, Option.isSome_none, Bool.false_eq_true, if_false]
          rw [lookupLoop_append_single _ _ _ hafter]
          rfl

/-- C6 witness: job 7's fifth consecutive network failure writes the
synthetic exhausted snapshot into the Store. -/
theorem polling_exhaustion_witness :
    (applyOp nearExhaustedSched (Op.pollFail 7 FetchError.network)).store 7
      = some (exhaustedJob 7 (nearExhaustedSched.store 7)) :=
  ((polling_exhaustion nearExhaustedSched 7 ⟨1, 4, 3000⟩ FetchError.network rfl
      (by decide)).2 (by decide)).1

/-- C7: fetch-level errors never escape the fetching layer — the History
and Reference fetch handlers always finish normally (their catch-alls
swallow the error), and a fetch failure for a watched job is delivered
to subscribers as a single entry on the same update channel that carries
successful snapshots. -/
theorem fetch_errors_never_escape :
    (∀ (prev : HistoryState) (resp : Except FetchError (List HistoryItem)),
        (fetchHistoryRun prev resp).isOk = true)
    ∧ (∀ (prev : RefState) (resp : Except FetchError RespData),
        (fetchReferencesRun prev resp).isOk = true)
    ∧ (∀ (s : SchedState) (id : Nat) (l : PollLoop) (e : FetchError),
        lookupLoop s.loops id = some l →
        ∃ u : Update, (step s (Op.pollFail id e)).2 = [u]) := by
  refine ⟨?_, ?_, ?_⟩
  · intro prev resp
    cases resp <;> rfl
  · intro prev resp
    cases resp <;> rfl
  · intro s id l e hl
    cases e with
    | notFound =>
        simp only [step, hl]
        exact ⟨Update.fetchFailed FetchError.notFound, rfl⟩
    | network =>
        simp only [step, hl]
        split
        · exact ⟨Update.snapshot (exhaustedJob id (s.store id)), rfl⟩
        · exact ⟨Update.fetchFailed FetchError.network, rfl⟩
    | server =>
        simp only [step, hl]
        split
        · exact ⟨Update.snapshot (exhaustedJob id (s.store id)), rfl⟩
        · exact ⟨Update.fetchFailed FetchError.server, rfl⟩

/-- C7 witness: a server error on the watched job 7 is delivered as one
update-channel entry. -/
theorem fetch_errors_never_escape_witness :
    ∃ u : Update, (step watchedSched (Op.pollFail 7 FetchError.server)).2 = [u] :=
  fetch_errors_never_escape.2.2 watchedSched 7 ⟨1, 0, baseInterval⟩ FetchError.server rfl
